import Mathlib

/-!
Verification of the moderation backend of the confession-bot repository
(`admin_deletion.py`, `approval.py`, `moderation.py`, `enhanced_reporting.py`,
`comments.py`) against its natural-language specification.

The relational store is embedded shallowly: each table is a list of rows,
an operation is a function from the database state to a result and a new
state.  Machine integers are `Nat`/`Int`; SQL `NULL` is `Option`.  Failure
injection (`TxnFail`) models the places where the Python code can hit a
storage error: the separately-committed audit write and the final commit.
-/

namespace ConfessionBot

/-- A row of the `posts` table (`db.py`, `init_db`).  `content` is nullable:
media-only posts store `NULL` there.  `approved` is `NULL` (pending), `1`
(approved) or `0` (rejected); `post_number` and `channel_message_id` are
populated on approval. -/
structure Post where
  post_id : Nat
  content : Option String
  category : String
  user_id : Nat
  approved : Option Nat
  channel_message_id : Option Nat
  post_number : Option Nat
  flagged : Bool
  rejection_reason : Option String
deriving Repr, DecidableEq

/-- A row of the `comments` table. -/
structure Comment where
  comment_id : Nat
  post_id : Nat
  user_id : Nat
  content : String
  parent_comment_id : Option Nat
  likes : Int
  dislikes : Int
  flagged : Bool
deriving Repr, DecidableEq

/-- A row of the `reactions` table.  The SERIAL primary key is never read by
any modelled operation and is omitted. -/
structure Reaction where
  user_id : Nat
  target_type : String
  target_id : Nat
  reaction_type : String
deriving Repr, DecidableEq

/-- A row of the `reports` table.  The SERIAL primary key is never read by
any modelled operation and is omitted. -/
structure Report where
  user_id : Nat
  target_type : String
  target_id : Nat
  reason : String
deriving Repr, DecidableEq

/-- A row of the `admin_actions` audit table (`log_admin_deletion`).  Of the
JSON details blob we keep the content preview, the only part whose
computation can fail. -/
structure AuditEntry where
  admin_user_id : Nat
  action_type : String
  target_type : String
  target_id : Nat
  details_preview : String
deriving Repr, DecidableEq

/-- The database state: one list of rows per table. -/
structure DB where
  posts : List Post
  comments : List Comment
  reactions : List Reaction
  reports : List Report
  admin_actions : List AuditEntry
deriving Repr, DecidableEq

/-- `SELECT ... FROM posts WHERE post_id = ?` (first row). -/
def findPost (db : DB) (post_id : Nat) : Option Post :=
  db.posts.find? (fun p => p.post_id = post_id)

/-- `SELECT ... FROM comments WHERE comment_id = ?` (first row). -/
def findComment (db : DB) (comment_id : Nat) : Option Comment :=
  db.comments.find? (fun c => c.comment_id = comment_id)

/-! ## Cascade deletion engine (`admin_deletion.py`) -/

/-- The truncated content preview built inline at the `log_admin_deletion`
call sites: `content[:100] + "..." if len(content) > 100 else content`. -/
def contentPreview (content : String) : String :=
  if content.length > 100 then (content.take 100) ++ "..." else content

/-- Failure injection for `delete_post_completely`: `ok` means every storage
primitive succeeds; `auditFails` means the audit insert on the separate
connection raises (swallowed inside `log_admin_deletion`); `commitFails`
means the final `conn.commit()` of the deletion transaction raises. -/
inductive TxnFail
  | ok
  | auditFails
  | commitFails
deriving Repr, DecidableEq

/-- The outcome of a deletion call: Python's `(False, "... not found")`,
`(True, deletion_stats)` and `(False, "Database error ...")`. -/
inductive DeleteResult
  | notFound
  | success (comments_deleted reactions_deleted reports_deleted : Nat)
  | dbError
deriving Repr, DecidableEq

/-- The comment ids belonging to a post
(`SELECT comment_id FROM comments WHERE post_id = ?`). -/
def commentIdsOfPost (db : DB) (post_id : Nat) : List Nat :=
  (db.comments.filter (fun c => c.post_id = post_id)).map Comment.comment_id

/-- `delete_post_completely(post_id, admin_user_id)` from
`admin_deletion.py`.  Within the deletion transaction it removes reactions
and reports on the post's comments, the comments, reports and reactions on
the post, and the post row; the audit entry is written by
`log_admin_deletion` on a *separate* connection with its own commit, and a
failure there is caught and logged inside `log_admin_deletion` without
aborting the deletion.  Building the audit details applies `len` to the
post's nullable content, which raises on `NULL` and aborts the transaction
before the audit write. -/
def delete_post_completely (db : DB) (post_id admin_user_id : Nat)
    (fail : TxnFail) : DeleteResult × DB :=
  match findPost db post_id with
  | none => (.notFound, db)
  | some p =>
    let commentIds := commentIdsOfPost db post_id
    let reactionsCount :=
      (db.reactions.filter
        (fun r => r.target_type = "comment" ∧ r.target_id ∈ commentIds)).length
    let commentReports :=
      (db.reports.filter
        (fun r => r.target_type = "comment" ∧ r.target_id ∈ commentIds)).length
    let postReports :=
      (db.reports.filter
        (fun r => r.target_type = "post" ∧ r.target_id = post_id)).length
    let reactions' := db.reactions.filter
      (fun r => ¬((r.target_type = "comment" ∧ r.target_id ∈ commentIds) ∨
                  (r.target_type = "post" ∧ r.target_id = post_id)))
    let reports' := db.reports.filter
      (fun r => ¬((r.target_type = "comment" ∧ r.target_id ∈ commentIds) ∨
                  (r.target_type = "post" ∧ r.target_id = post_id)))
    let comments' := db.comments.filter (fun c => ¬(c.post_id = post_id))
    let posts' := db.posts.filter (fun q => ¬(q.post_id = post_id))
    match p.content with
    | none =>
      -- `len(content)` on NULL raises TypeError; the transaction is rolled
      -- back and the error branch returns `(False, "Database error ...")`.
      (.dbError, db)
    | some c =>
      let entry : AuditEntry :=
        { admin_user_id := admin_user_id, action_type := "DELETE_POST",
          target_type := "post", target_id := post_id,
          details_preview := contentPreview c }
      match fail with
      | .auditFails =>
        -- audit insert raises, swallowed inside `log_admin_deletion`;
        -- the deletion transaction still commits.
        (.success commentIds.length reactionsCount (commentReports + postReports),
         { db with posts := posts', comments := comments',
                   reactions := reactions', reports := reports' })
      | .commitFails =>
        -- the audit write already committed on its own connection; the
        -- deletion transaction rolls back.
        (.dbError, { db with admin_actions := db.admin_actions ++ [entry] })
      | .ok =>
        (.success commentIds.length reactionsCount (commentReports + postReports),
         { posts := posts', comments := comments', reactions := reactions',
           reports := reports',
           admin_actions := db.admin_actions ++ [entry] })

/-- The direct-reply ids of a comment
(`SELECT comment_id FROM comments WHERE parent_comment_id = ?`). -/
def replyIdsOf (db : DB) (comment_id : Nat) : List Nat :=
  (db.comments.filter (fun c => c.parent_comment_id = some comment_id)).map
    Comment.comment_id

/-- The outcome of `delete_comment_completely` in delete mode:
`(True, deletion_stats)` with the main comment, its direct replies, and the
reactions/reports removed, or one of the failure payloads. -/
inductive CommentDeleteResult
  | notFound
  | success (comments_deleted replies_deleted reactions_deleted reports_deleted : Nat)
deriving Repr, DecidableEq

/-- `delete_comment_completely(comment_id, admin_user_id)` from
`admin_deletion.py` with `replace_mode=False` (the success path of the
deletion transaction): removes reactions and reports targeting the comment
or any of its direct replies, then the replies
(`DELETE ... WHERE parent_comment_id = ?`), then the comment itself, and
appends one `DELETE_COMMENT` audit entry. -/
def delete_comment_completely (db : DB) (comment_id admin_user_id : Nat) :
    CommentDeleteResult × DB :=
  match findComment db comment_id with
  | none => (.notFound, db)
  | some c =>
    let replyIds := replyIdsOf db comment_id
    let allIds := comment_id :: replyIds
    let reactionsCount :=
      (db.reactions.filter
        (fun r => r.target_type = "comment" ∧ r.target_id ∈ allIds)).length
    let reportsCount :=
      (db.reports.filter
        (fun r => r.target_type = "comment" ∧ r.target_id ∈ allIds)).length
    let reactions' := db.reactions.filter
      (fun r => ¬(r.target_type = "comment" ∧ r.target_id ∈ allIds))
    let reports' := db.reports.filter
      (fun r => ¬(r.target_type = "comment" ∧ r.target_id ∈ allIds))
    let comments' := db.comments.filter
      (fun x => ¬(x.parent_comment_id = some comment_id ∨ x.comment_id = comment_id))
    let entry : AuditEntry :=
      { admin_user_id := admin_user_id, action_type := "DELETE_COMMENT",
        target_type := "comment", target_id := comment_id,
        details_preview := contentPreview c.content }
    (.success 1 replyIds.length reactionsCount reportsCount,
     { db with comments := comments', reactions := reactions',
               reports := reports',
               admin_actions := db.admin_actions ++ [entry] })

/-- The fixed notice written into direct replies by the replace path. -/
def replyReplacementMessage : String :=
  "[This reply has been removed because the parent comment was removed]"

/-- `UPDATE comments SET content = ?, flagged = 0 WHERE comment_id = ?`
for the main comment. -/
def updateMain (comment_id : Nat) (replacement : String) (c : Comment) :
    Comment :=
  if c.comment_id = comment_id then
    { c with content := replacement, flagged := false } else c

/-- The per-reply-id loop of UPDATE statements writing the fixed notice. -/
def updateReply (replyIds : List Nat) (c : Comment) : Comment :=
  if c.comment_id ∈ replyIds then
    { c with content := replyReplacementMessage, flagged := false } else c

/-- The row-level effect of the replace path's UPDATE statements: first
`UPDATE comments SET content = ?, flagged = 0 WHERE comment_id = ?` for the
main comment, then the same per direct reply id with the fixed notice. -/
def replaceTransform (comment_id : Nat) (replyIds : List Nat)
    (replacement : String) (c : Comment) : Comment :=
  updateReply replyIds (updateMain comment_id replacement c)

/-- The outcome of `replace_comment_with_message`:
`(True, replacement_stats)` or a failure payload. -/
inductive ReplaceResult
  | notFound
  | success (comments_replaced replies_replaced reports_cleared : Nat)
deriving Repr, DecidableEq

/-- `replace_comment_with_message(comment_id, admin_user_id,
replacement_message)` from `admin_deletion.py` (the success path of the
transaction): overwrites the comment's content and clears its flagged flag,
overwrites each direct reply with a fixed notice and clears its flag,
deletes every report on the comment and its direct replies, leaves
reactions untouched, and appends one `REPLACE_COMMENT` audit entry.
The `reports_cleared` stat mirrors the code's `SELECT changes()`, which
reports only the last DELETE of the per-id loop. -/
def replace_comment_with_message (db : DB) (comment_id admin_user_id : Nat)
    (replacement : String) : ReplaceResult × DB :=
  match findComment db comment_id with
  | some c =>
    let replyIds := replyIdsOf db comment_id
    let comments' := db.comments.map (replaceTransform comment_id replyIds replacement)
    let allIds := comment_id :: replyIds
    let reports' := db.reports.filter
      (fun r => ¬(r.target_type = "comment" ∧ r.target_id ∈ allIds))
    let lastId := allIds.getLast (by simp [allIds])
    let reportsCleared :=
      (db.reports.filter
        (fun r => r.target_type = "comment" ∧ r.target_id = lastId)).length
    let entry : AuditEntry :=
      { admin_user_id := admin_user_id, action_type := "REPLACE_COMMENT",
        target_type := "comment", target_id := comment_id,
        details_preview := contentPreview c.content }
    (.success 1 replyIds.length reportsCleared,
     { db with comments := comments', reports := reports',
               admin_actions := db.admin_actions ++ [entry] })
  | none => (.notFound, db)

/-! ## Approval state machine (`approval.py`) -/

/-- `SELECT MAX(post_number) FROM posts WHERE post_number IS NOT NULL`:
`NULL` when no post carries a number. -/
def maxPostNumber (posts : List Post) : Option Nat :=
  posts.foldr
    (fun p acc =>
      match p.post_number, acc with
      | none, acc => acc
      | some v, none => some v
      | some v, some m => some (Nat.max v m))
    none

/-- `get_next_post_number()`: `(result[0] + 1) if result[0] is not None
else 1`. -/
def get_next_post_number (posts : List Post) : Nat :=
  match maxPostNumber posts with
  | some m => m + 1
  | none => 1

/-- `approve_post(post_id, message_id, post_number)`:
`UPDATE posts SET approved=1, channel_message_id=?, post_number=?
WHERE post_id=?`. -/
def approvePostRow (post_id : Nat) (message_id : Option Nat)
    (post_number : Nat) (p : Post) : Post :=
  if p.post_id = post_id then
    { p with approved := some 1, channel_message_id := message_id,
             post_number := some post_number }
  else p

def approve_post (db : DB) (post_id : Nat) (message_id : Option Nat)
    (post_number : Nat) : DB :=
  { db with posts := db.posts.map (approvePostRow post_id message_id post_number) }

/-- What the external channel does when the approve flow tries to publish:
the pre-flight `get_chat` probe fails (`unreachable`), the send call itself
raises (`sendFails`), or the send returns a message id (`sent`). -/
inductive PublishOutcome
  | unreachable
  | sendFails
  | sent (message_id : Nat)
deriving Repr, DecidableEq

/-- The admin-visible outcome of one click on "approve" (the
`approve_` branch of `admin_callback`), classifying the message the admin
interface is edited to.  Only the variants whose message text actually
contains a post number carry one: the already-approved acknowledgement
("Approved by another admin!") contains none. -/
inductive ApproveObs
  | notFound
  | alreadyApproved
  | alreadyRejected
  | approvedPosted (post_number message_id : Nat)
  | approvedLocal (post_number : Nat)
  | publishError
deriving Repr, DecidableEq

/-- The post number contained in the admin-visible outcome message. -/
def obsNumber : ApproveObs → Option Nat
  | .approvedPosted n _ => some n
  | .approvedLocal n => some n
  | _ => none

structure ApproveOutcome where
  obs : ApproveObs
  db : DB
  publishAttempted : Bool
deriving Repr, DecidableEq

/-- The `approve_` branch of `admin_callback` in `approval.py`: load the
post; if already approved or rejected, acknowledge and return with no
mutation and no publish; otherwise allocate `get_next_post_number()`,
test channel access, publish when accessible, and persist via
`approve_post` — with a null message id when the channel was unreachable,
and not at all when the send itself raised (the exception jumps to the
outer handler before `approve_post` is reached). -/
def approveCallback (db : DB) (post_id : Nat) (pub : PublishOutcome) :
    ApproveOutcome :=
  match findPost db post_id with
  | none => ⟨.notFound, db, false⟩
  | some p =>
    if p.approved = some 1 then ⟨.alreadyApproved, db, false⟩
    else if p.approved = some 0 then ⟨.alreadyRejected, db, false⟩
    else
      let n := get_next_post_number db.posts
      match pub with
      | .unreachable => ⟨.approvedLocal n, approve_post db post_id none n, false⟩
      | .sendFails => ⟨.publishError, db, true⟩
      | .sent mid => ⟨.approvedPosted n mid, approve_post db post_id (some mid) n, true⟩

/-- Sequentially approving a list of posts (each with the channel
unreachable, which exercises the same allocation path). -/
def approveMany (db : DB) (pids : List Nat) : List ApproveObs × DB :=
  match pids with
  | [] => ([], db)
  | pid :: rest =>
    let r := approveCallback db pid .unreachable
    let (obss, db') := approveMany r.db rest
    (r.obs :: obss, db')

/-- The contiguous sequence `[s, s+1, ..., s+n-1]`. -/
def seqFrom : Nat → Nat → List Nat
  | _, 0 => []
  | s, n + 1 => s :: seqFrom (s + 1) n

/-! ## Report aggregation and threshold notification
(`moderation.py`, `enhanced_reporting.py`) -/

/-- `SELECT COUNT(*) FROM reports WHERE user_id = ? AND target_type = ?
AND target_id = ?`. -/
def userReportCount (db : DB) (user_id : Nat) (target_type : String)
    (target_id : Nat) : Nat :=
  (db.reports.filter
    (fun r => r.user_id = user_id ∧ r.target_type = target_type ∧
              r.target_id = target_id)).length

/-- `SELECT COUNT(*) FROM reports WHERE target_type = ? AND
target_id = ?`. -/
def reportCountFor (db : DB) (target_type : String) (target_id : Nat) : Nat :=
  (db.reports.filter
    (fun r => r.target_type = target_type ∧ r.target_id = target_id)).length

/-- `report_abuse(user_id, target_type, target_id, reason)` from
`moderation.py`: a duplicate attempt inserts nothing and returns the current
total count; a fresh report is inserted and the new total returned. -/
def report_abuse (db : DB) (user_id : Nat) (target_type : String)
    (target_id : Nat) (reason : String) : Nat × DB :=
  if userReportCount db user_id target_type target_id > 0 then
    (reportCountFor db target_type target_id, db)
  else
    let db' := { db with reports := db.reports ++
      [{ user_id := user_id, target_type := target_type,
         target_id := target_id, reason := reason }] }
    (reportCountFor db' target_type target_id, db')

/-- The return value of `submit_report` in `enhanced_reporting.py`:
`(False, "already_reported")` or `(True, report_count)`. -/
inductive SubmitResult
  | alreadyReported
  | recorded (report_count : Nat)
deriving Repr, DecidableEq

/-- The aggregate count a `submit_report` return value carries back to the
caller, if any. -/
def submitCount : SubmitResult → Option Nat
  | .alreadyReported => none
  | .recorded n => some n

/-- `submit_report(user_id, content_type, content_id, reason_id)` from
`enhanced_reporting.py`: a duplicate attempt returns
`(False, "already_reported")` without inserting; otherwise the report is
inserted and the new total returned. -/
def submit_report (db : DB) (user_id : Nat) (content_type : String)
    (content_id : Nat) (reason : String) : SubmitResult × DB :=
  if userReportCount db user_id content_type content_id > 0 then
    (.alreadyReported, db)
  else
    let db' := { db with reports := db.reports ++
      [{ user_id := user_id, target_type := content_type,
         target_id := content_id, reason := reason }] }
    (.recorded (reportCountFor db' content_type content_id), db')

/-- `get_content_details(content_type, content_id)`: the comment or post
row the notification text is built from, `None` for an unknown target type
or a missing row. -/
def get_content_details (db : DB) (content_type : String) (content_id : Nat) :
    Option (Comment ⊕ Post) :=
  if content_type = "comment" then (findComment db content_id).map Sum.inl
  else if content_type = "post" then (findPost db content_id).map Sum.inr
  else none

/-- `notify_admins_about_reports(context, target_type, target_id,
report_count)` from `moderation.py`, abstracted to whether the per-admin
send loop is reached: `False` immediately when `report_count < 5`, `False`
when the content row is missing, otherwise the fan-out runs. -/
def notify_admins_about_reports (db : DB) (target_type : String)
    (target_id : Nat) (report_count : Nat) : Bool :=
  if report_count < 5 then false
  else (get_content_details db target_type target_id).isSome

/-- `notify_admins_immediate(context, content_type, content_id, ...)` from
`enhanced_reporting.py`, abstracted to whether the per-admin send loop is
reached: it performs no report-count comparison at all. -/
def notify_admins_immediate (db : DB) (content_type : String)
    (content_id : Nat) : Bool :=
  (get_content_details db content_type content_id).isSome

/-- `handle_submit_report` from `enhanced_reporting.py`: submit the report;
on success, `notify_admins_immediate` is invoked unconditionally.  The
returned flag records whether an admin notification fan-out was
triggered. -/
def handle_submit_report (db : DB) (user_id : Nat) (content_type : String)
    (content_id : Nat) (reason : String) : SubmitResult × DB × Bool :=
  let (res, db') := submit_report db user_id content_type content_id reason
  match res with
  | .alreadyReported => (res, db', false)
  | .recorded _ => (res, db', notify_admins_immediate db' content_type content_id)

/-! ## Comment reactions (`comments.py`) -/

/-- The value returned by `react_to_comment`: success flag, the action
string, and the current counters re-read after commit. -/
structure ReactResult where
  ok : Bool
  action : String
  likes : Int
  dislikes : Int
deriving Repr, DecidableEq

/-- `UPDATE comments SET likes = likes + dl, dislikes = dislikes + dd
WHERE comment_id = ?`. -/
def bumpCounters (comment_id : Nat) (dl dd : Int) (c : Comment) : Comment :=
  if c.comment_id = comment_id then
    { c with likes := c.likes + dl, dislikes := c.dislikes + dd }
  else c

/-- `react_to_comment(user_id, comment_id, reaction_type)` from
`comments.py`: an existing same-type reaction is deleted and the counter
decremented; an existing opposite-type reaction has its `reaction_type`
updated in place and both counters adjusted; otherwise a new row is
inserted and the counter incremented. -/
def react_to_comment (db : DB) (user_id comment_id : Nat)
    (reaction_type : String) : ReactResult × DB :=
  let matchRow := fun (r : Reaction) =>
    r.user_id = user_id ∧ r.target_type = "comment" ∧ r.target_id = comment_id
  let deltas : (Int × Int) × String × List Reaction :=
    match db.reactions.find? (fun r => matchRow r) with
    | some existing =>
      if existing.reaction_type = reaction_type then
        ((if reaction_type = "like" then (-1, 0) else (0, -1)), "removed",
         db.reactions.filter (fun r => ¬ matchRow r))
      else
        ((if existing.reaction_type = "like" then (-1, 1) else (1, -1)), "changed",
         db.reactions.map (fun r =>
           if matchRow r then { r with reaction_type := reaction_type } else r))
    | none =>
      ((if reaction_type = "like" then (1, 0) else (0, 1)), "added",
       db.reactions ++ [{ user_id := user_id, target_type := "comment",
                          target_id := comment_id,
                          reaction_type := reaction_type }])
  let comments' := db.comments.map
    (bumpCounters comment_id deltas.1.1 deltas.1.2)
  let db' := { db with comments := comments', reactions := deltas.2.2 }
  let counts := (findComment db' comment_id).map (fun c => (c.likes, c.dislikes))
  (⟨true, deltas.2.1, (counts.map Prod.fst).getD 0, (counts.map Prod.snd).getD 0⟩,
   db')

/-- A sequence of reaction operations applied in order. -/
def applyReactions (db : DB) (ops : List (Nat × Nat × String)) : DB :=
  ops.foldl (fun d op => (react_to_comment d op.1 op.2.1 op.2.2).2) db

/-- The at-most-one-reaction invariant: for every (user, target type,
target id) triple, at most one `reactions` row exists. -/
def reactionInvariant (db : DB) : Prop :=
  ∀ u tt tid,
    (db.reactions.filter
      (fun r => r.user_id = u ∧ r.target_type = tt ∧ r.target_id = tid)).length ≤ 1

/-! ## Helper lemmas -/

theorem filter_map_comm {α : Type} (l : List α) (f : α → α) (p : α → Bool)
    (h : ∀ x, p (f x) = p x) : (l.map f).filter p = (l.filter p).map f := by
  induction l with
  | nil => rfl
  | cons x t ih =>
    by_cases hx : p x = true
    · simp [List.filter_cons, hx, h, ih]
    · simp only [Bool.not_eq_true] at hx
      simp [List.filter_cons, hx, h, ih]

theorem updateMain_fields (cid : Nat) (repl : String) (c : Comment) :
    (updateMain cid repl c).comment_id = c.comment_id ∧
    (updateMain cid repl c).post_id = c.post_id ∧
    (updateMain cid repl c).parent_comment_id = c.parent_comment_id ∧
    (updateMain cid repl c).likes = c.likes ∧
    (updateMain cid repl c).dislikes = c.dislikes := by
  unfold updateMain
  split <;> simp

theorem updateReply_fields (rids : List Nat) (c : Comment) :
    (updateReply rids c).comment_id = c.comment_id ∧
    (updateReply rids c).post_id = c.post_id ∧
    (updateReply rids c).parent_comment_id = c.parent_comment_id ∧
    (updateReply rids c).likes = c.likes ∧
    (updateReply rids c).dislikes = c.dislikes := by
  unfold updateReply
  split <;> simp

theorem replaceTransform_of_target (cid : Nat) (rids : List Nat)
    (repl : String) (x : Comment) (h1 : x.comment_id = cid)
    (h2 : cid ∉ rids) :
    replaceTransform cid rids repl x =
      { x with content := repl, flagged := false } := by
  unfold replaceTransform updateReply updateMain
  rw [if_pos h1]
  rw [if_neg (by
    show x.comment_id ∉ rids
    rw [h1]
    exact h2)]

theorem replaceTransform_of_reply (cid : Nat) (rids : List Nat)
    (repl : String) (x : Comment) (h1 : ¬(x.comment_id = cid))
    (h2 : x.comment_id ∈ rids) :
    replaceTransform cid rids repl x =
      { x with content := replyReplacementMessage, flagged := false } := by
  unfold replaceTransform updateReply updateMain
  rw [if_neg h1, if_pos h2]

theorem replaceTransform_of_other (cid : Nat) (rids : List Nat)
    (repl : String) (x : Comment) (h1 : ¬(x.comment_id = cid))
    (h2 : x.comment_id ∉ rids) :
    replaceTransform cid rids repl x = x := by
  unfold replaceTransform updateReply updateMain
  rw [if_neg h1, if_neg h2]

theorem mem_replyIdsOf {db : DB} {cid t : Nat} :
    t ∈ replyIdsOf db cid ↔
      ∃ y ∈ db.comments, y.parent_comment_id = some cid ∧ y.comment_id = t := by
  simp [replyIdsOf, List.mem_map, List.mem_filter, and_assoc]

theorem length_filter_eq_one_of_nodup_map {α β : Type} [DecidableEq β]
    (l : List α) (f : α → β) (hnd : (l.map f).Nodup) (x : α) (hx : x ∈ l)
    (k : β) (hk : f x = k) :
    (l.filter (fun y => f y = k)).length = 1 := by
  induction l with
  | nil => cases hx
  | cons a t ih =>
    rw [List.map_cons, List.nodup_cons] at hnd
    rcases List.mem_cons.mp hx with rfl | hxt
    · rw [List.filter_cons]
      simp only [hk, decide_True, if_true]
      have ht : t.filter (fun y => decide (f y = k)) = [] := by
        rw [List.filter_eq_nil_iff]
        intro b hb hfb
        exact hnd.1 (hk ▸ (by simpa using hfb) ▸ List.mem_map_of_mem f hb)
      simp [ht]
    · have hfa : f a ≠ k := by
        intro hcon
        exact hnd.1 (hcon ▸ hk ▸ (List.mem_map_of_mem f hxt))
      rw [List.filter_cons]
      simp only [hfa, decide_False, if_neg, Bool.false_eq_true, if_false]
      exact ih hnd.2 hxt

theorem length_filter_or_disjoint {α : Type} (l : List α) (p q : α → Bool)
    (h : ∀ x ∈ l, ¬(p x = true ∧ q x = true)) :
    (l.filter (fun x => p x || q x)).length =
      (l.filter p).length + (l.filter q).length := by
  induction l with
  | nil => rfl
  | cons a t ih =>
    have ht := ih (fun x hx => h x (List.mem_cons_of_mem a hx))
    have ha := h a (List.mem_cons_self a t)
    rw [List.filter_cons, List.filter_cons, List.filter_cons]
    cases hp : p a <;> cases hq : q a <;> simp_all <;> omega

/-! ## Claim theorems -/

/-- A post with one comment carrying a reaction and a report, plus a report
on the post itself: concrete state used to exercise the deletion engine. -/
def dbDel : DB :=
  { posts := [{ post_id := 1, content := some "hello world",
                category := "general", user_id := 42, approved := some 1,
                channel_message_id := some 500, post_number := some 1,
                flagged := false, rejection_reason := none }],
    comments := [{ comment_id := 101, post_id := 1, user_id := 43,
                   content := "first", parent_comment_id := none,
                   likes := 2, dislikes := 0, flagged := false }],
    reactions := [{ user_id := 44, target_type := "comment",
                    target_id := 101, reaction_type := "like" }],
    reports := [{ user_id := 45, target_type := "post", target_id := 1,
                  reason := "spam" },
                { user_id := 46, target_type := "comment", target_id := 101,
                  reason := "abuse" }],
    admin_actions := [] }

/-- C1 counterexample: `delete_post_completely` is not atomic with its
audit record.  When the audit insert fails (an exception swallowed inside
`log_admin_deletion`), the call still reports success and all deletions
commit, yet no `DELETE_POST` audit entry exists afterwards; conversely when
the deletion transaction's final commit fails, the separately committed
audit entry persists while every deletion is rolled back. -/
theorem delete_post_audit_not_atomic :
    (delete_post_completely dbDel 1 7 .auditFails).1 = .success 1 1 2 ∧
    (delete_post_completely dbDel 1 7 .auditFails).2.posts = [] ∧
    (delete_post_completely dbDel 1 7 .auditFails).2.comments = [] ∧
    (delete_post_completely dbDel 1 7 .auditFails).2.admin_actions = [] ∧
    (delete_post_completely dbDel 1 7 .commitFails).1 = .dbError ∧
    (delete_post_completely dbDel 1 7 .commitFails).2.posts = dbDel.posts ∧
    (delete_post_completely dbDel 1 7 .commitFails).2.admin_actions ≠ [] := by
  decide

/-- The tables of `db` after the seven deletions of
`delete_post_completely(post_id, ...)`, audit log untouched. -/
def postCascadePurged (db : DB) (post_id : Nat) : DB :=
  { db with
    posts := db.posts.filter (fun q => ¬(q.post_id = post_id)),
    comments := db.comments.filter (fun c => ¬(c.post_id = post_id)),
    reactions := db.reactions.filter
      (fun r => ¬((r.target_type = "comment" ∧
                   r.target_id ∈ commentIdsOfPost db post_id) ∨
                  (r.target_type = "post" ∧ r.target_id = post_id))),
    reports := db.reports.filter
      (fun r => ¬((r.target_type = "comment" ∧
                   r.target_id ∈ commentIdsOfPost db post_id) ∨
                  (r.target_type = "post" ∧ r.target_id = post_id))) }

/-- The `(True, deletion_stats)` value reported by a successful
`delete_post_completely(post_id, ...)`. -/
def deletePostStats (db : DB) (post_id : Nat) : DeleteResult :=
  .success (commentIdsOfPost db post_id).length
    (db.reactions.filter
      (fun r => r.target_type = "comment" ∧
                r.target_id ∈ commentIdsOfPost db post_id)).length
    ((db.reports.filter
      (fun r => r.target_type = "comment" ∧
                r.target_id ∈ commentIdsOfPost db post_id)).length +
     (db.reports.filter
      (fun r => r.target_type = "post" ∧ r.target_id = post_id)).length)

/-- The `DELETE_POST` audit entry written for a post with content `c`. -/
def deletePostAudit (post_id admin_user_id : Nat) (c : String) : AuditEntry :=
  { admin_user_id := admin_user_id, action_type := "DELETE_POST",
    target_type := "post", target_id := post_id,
    details_preview := contentPreview c }

/-- C1 (amended): for an existing post with non-null content, the seven
deletions of `delete_post_completely` are atomic among themselves — on a
commit failure none of them is observable — but the `DELETE_POST` audit
entry is written in a separate, separately committed transaction: when the
audit write fails the deletions still commit with success reported and no
audit entry, and when the deletion transaction's commit fails the audit
entry persists while all tables keep their prior contents. -/
theorem delete_post_audit_separate (db : DB) (post_id admin_user_id : Nat)
    (p : Post) (c : String)
    (hp : findPost db post_id = some p) (hc : p.content = some c) :
    delete_post_completely db post_id admin_user_id .ok =
      (deletePostStats db post_id,
       { postCascadePurged db post_id with
         admin_actions := db.admin_actions ++
           [deletePostAudit post_id admin_user_id c] }) ∧
    delete_post_completely db post_id admin_user_id .auditFails =
      (deletePostStats db post_id, postCascadePurged db post_id) ∧
    delete_post_completely db post_id admin_user_id .commitFails =
      (.dbError,
       { db with admin_actions := db.admin_actions ++
           [deletePostAudit post_id admin_user_id c] }) := by
  simp only [delete_post_completely, postCascadePurged, deletePostStats,
    deletePostAudit, hp, hc]
  exact ⟨trivial, trivial, trivial⟩

/-- Witness for `delete_post_audit_separate` at a concrete state. -/
theorem delete_post_audit_separate_witness :
    delete_post_completely dbDel 1 7 .auditFails =
      (deletePostStats dbDel 1, postCascadePurged dbDel 1) := by
  exact (delete_post_audit_separate dbDel 1 7 _ "hello world" rfl rfl).2.1

/-- C10: for an existing post whose `content` is NULL (a media-only post),
`delete_post_completely` aborts — building the audit content preview
applies `len` to the null content, which raises — and returns the database
error outcome with the state unchanged, even though the post exists. -/
theorem delete_post_null_content_fails (db : DB) (post_id admin_user_id : Nat)
    (fail : TxnFail) (p : Post)
    (hp : findPost db post_id = some p) (hc : p.content = none) :
    delete_post_completely db post_id admin_user_id fail = (.dbError, db) := by
  simp only [delete_post_completely, hp, hc]

/-- A media-only post: `content` NULL, media fields elsewhere. -/
def dbMediaOnly : DB :=
  { posts := [{ post_id := 3, content := none, category := "general",
                user_id := 42, approved := some 1,
                channel_message_id := some 501, post_number := some 2,
                flagged := false, rejection_reason := none }],
    comments := [], reactions := [], reports := [], admin_actions := [] }

/-- Witness for `delete_post_null_content_fails` at a concrete state. -/
theorem delete_post_null_content_fails_witness :
    delete_post_completely dbMediaOnly 3 7 .ok = (.dbError, dbMediaOnly) := by
  exact delete_post_null_content_fails dbMediaOnly 3 7 .ok _ rfl rfl

/-- C8: `delete_comment_completely` (delete mode) removes exactly the
comment and its direct replies — the comments whose `parent_comment_id`
equals the deleted comment's id — together with the reactions and reports
targeting that set; every other comment, reaction and report survives.  In
particular a reply-to-a-reply is not deleted: it remains as an orphan row
whose parent row is gone. -/
theorem delete_comment_scope (db : DB) (cid aid : Nat) (c : Comment)
    (hc : findComment db cid = some c) :
    (∀ x ∈ db.comments,
       (x ∈ (delete_comment_completely db cid aid).2.comments ↔
         (x.comment_id ≠ cid ∧ x.parent_comment_id ≠ some cid))) ∧
    (∀ x ∈ (delete_comment_completely db cid aid).2.comments,
       x ∈ db.comments) ∧
    (∀ r ∈ db.reactions,
       (r ∈ (delete_comment_completely db cid aid).2.reactions ↔
         ¬(r.target_type = "comment" ∧ (r.target_id = cid ∨
            ∃ y ∈ db.comments, y.parent_comment_id = some cid ∧
              y.comment_id = r.target_id)))) ∧
    (∀ r ∈ db.reports,
       (r ∈ (delete_comment_completely db cid aid).2.reports ↔
         ¬(r.target_type = "comment" ∧ (r.target_id = cid ∨
            ∃ y ∈ db.comments, y.parent_comment_id = some cid ∧
              y.comment_id = r.target_id)))) ∧
    (∀ g y, g ∈ db.comments → y ∈ db.comments →
       y.parent_comment_id = some cid → g.parent_comment_id = some y.comment_id →
       y.comment_id ≠ cid → g.comment_id ≠ cid →
       (g ∈ (delete_comment_completely db cid aid).2.comments ∧
        y ∉ (delete_comment_completely db cid aid).2.comments)) := by
  simp only [delete_comment_completely, hc]
  refine ⟨?_, ?_, ?_, ?_, ?_⟩
  · intro x hx
    simp only [List.mem_filter, hx, true_and, decide_eq_true_eq]
    tauto
  · intro x hx
    exact (List.mem_filter.mp hx).1
  · intro r hr
    simp only [List.mem_filter, hr, true_and, decide_eq_true_eq,
      List.mem_cons, replyIdsOf, List.mem_map, and_assoc]
  · intro r hr
    simp only [List.mem_filter, hr, true_and, decide_eq_true_eq,
      List.mem_cons, replyIdsOf, List.mem_map, and_assoc]
  · intro g y hg hy hypar hgpar hyne hgne
    constructor
    · refine List.mem_filter.mpr ⟨hg, ?_⟩
      simp only [decide_eq_true_eq]
      push_neg
      refine ⟨?_, hgne⟩
      intro hcon
      rw [hgpar] at hcon
      exact hyne (Option.some_injective _ hcon)
    · intro hmem
      have := (List.mem_filter.mp hmem).2
      simp only [decide_eq_true_eq] at this
      exact this (Or.inl hypar)

/-- A comment thread for the replace/delete claims: comment 101 (top
level), its direct replies 102 and 103, a grandchild 104 replying to 102,
an unrelated comment 105, reactions and reports spread over them. -/
def dbThread : DB :=
  { posts := [{ post_id := 1, content := some "hello world",
                category := "general", user_id := 42, approved := some 1,
                channel_message_id := some 500, post_number := some 1,
                flagged := false, rejection_reason := none }],
    comments :=
      [{ comment_id := 101, post_id := 1, user_id := 43, content := "root",
         parent_comment_id := none, likes := 2, dislikes := 1, flagged := true },
       { comment_id := 102, post_id := 1, user_id := 44, content := "reply a",
         parent_comment_id := some 101, likes := 0, dislikes := 0, flagged := false },
       { comment_id := 103, post_id := 1, user_id := 45, content := "reply b",
         parent_comment_id := some 101, likes := 1, dislikes := 0, flagged := true },
       { comment_id := 104, post_id := 1, user_id := 46, content := "grandchild",
         parent_comment_id := some 102, likes := 0, dislikes := 2, flagged := false },
       { comment_id := 105, post_id := 1, user_id := 47, content := "other",
         parent_comment_id := none, likes := 3, dislikes := 0, flagged := false }],
    reactions := [{ user_id := 48, target_type := "comment", target_id := 101,
                    reaction_type := "like" },
                  { user_id := 48, target_type := "comment", target_id := 104,
                    reaction_type := "dislike" }],
    reports := [{ user_id := 49, target_type := "comment", target_id := 101,
                  reason := "spam" },
                { user_id := 49, target_type := "comment", target_id := 102,
                  reason := "spam" },
                { user_id := 49, target_type := "comment", target_id := 104,
                  reason := "spam" }],
    admin_actions := [] }

/-- Witness for `delete_comment_scope` at the concrete thread: deleting
comment 101 keeps the grandchild 104 (now an orphan, its parent 102 gone)
and the unrelated comment 105. -/
theorem delete_comment_scope_witness :
    ((delete_comment_completely dbThread 101 7).2.comments.map
        Comment.comment_id = [104, 105]) ∧
    (({ comment_id := 104, post_id := 1, user_id := 46,
        content := "grandchild", parent_comment_id := some 102, likes := 0,
        dislikes := 2, flagged := false } : Comment) ∈
      (delete_comment_completely dbThread 101 7).2.comments ∧
     ({ comment_id := 102, post_id := 1, user_id := 44, content := "reply a",
        parent_comment_id := some 101, likes := 0, dislikes := 0,
        flagged := false } : Comment) ∉
      (delete_comment_completely dbThread 101 7).2.comments) := by
  refine ⟨by decide, (delete_comment_scope dbThread 101 7 _ rfl).2.2.2.2
    _ _ (by decide) (by decide) rfl rfl (by decide) (by decide)⟩

/-- C7: for an existing comment with N direct replies (ids unique, no
self-parent loop on the target), `replace_comment_with_message` keeps
every comment row — in particular the 1 + N thread rows — with unchanged
comment id, post association, parent link, and like/dislike counters; the
target's content becomes the replacement text and each direct reply's
content the fixed notice, with flags cleared; rows outside the thread are
untouched; no report on the comment or any direct reply remains while
other reports survive; and the reactions table is untouched. -/
theorem replace_comment_preserves_shape (db : DB) (cid aid : Nat)
    (repl : String) (c : Comment)
    (hc : findComment db cid = some c)
    (hnd : (db.comments.map Comment.comment_id).Nodup)
    (hns : ∀ x ∈ db.comments, x.parent_comment_id = some cid →
             x.comment_id ≠ cid) :
    ((replace_comment_with_message db cid aid repl).2.comments.length =
       db.comments.length) ∧
    ((replace_comment_with_message db cid aid repl).2.comments.map
        (fun x => (x.comment_id, x.post_id, x.parent_comment_id,
                   x.likes, x.dislikes)) =
      db.comments.map
        (fun x => (x.comment_id, x.post_id, x.parent_comment_id,
                   x.likes, x.dislikes))) ∧
    (((replace_comment_with_message db cid aid repl).2.comments.filter
        (fun x => x.comment_id = cid ∨ x.parent_comment_id = some cid)).length =
      1 + (db.comments.filter
        (fun x => x.parent_comment_id = some cid)).length) ∧
    (∀ x ∈ db.comments, x.comment_id = cid →
      { x with content := repl, flagged := false } ∈
        (replace_comment_with_message db cid aid repl).2.comments) ∧
    (∀ x ∈ db.comments, x.parent_comment_id = some cid →
      { x with content := replyReplacementMessage, flagged := false } ∈
        (replace_comment_with_message db cid aid repl).2.comments) ∧
    (∀ x ∈ db.comments, x.comment_id ≠ cid → x.parent_comment_id ≠ some cid →
      x ∈ (replace_comment_with_message db cid aid repl).2.comments) ∧
    (∀ r ∈ (replace_comment_with_message db cid aid repl).2.reports,
      ¬(r.target_type = "comment" ∧ (r.target_id = cid ∨
         r.target_id ∈ replyIdsOf db cid))) ∧
    (∀ r ∈ db.reports,
      ¬(r.target_type = "comment" ∧ (r.target_id = cid ∨
         r.target_id ∈ replyIdsOf db cid)) →
      r ∈ (replace_comment_with_message db cid aid repl).2.reports) ∧
    ((replace_comment_with_message db cid aid repl).2.reactions =
       db.reactions) ∧
    ((replace_comment_with_message db cid aid repl).2.posts = db.posts) := by
  have hcid_not_reply : cid ∉ replyIdsOf db cid := by
    rw [mem_replyIdsOf]
    rintro ⟨y, hy, hpar, hid⟩
    exact hns y hy hpar hid
  have hkeep : ∀ x : Comment,
      (replaceTransform cid (replyIdsOf db cid) repl x).comment_id = x.comment_id ∧
      (replaceTransform cid (replyIdsOf db cid) repl x).post_id = x.post_id ∧
      (replaceTransform cid (replyIdsOf db cid) repl x).parent_comment_id =
        x.parent_comment_id ∧
      (replaceTransform cid (replyIdsOf db cid) repl x).likes = x.likes ∧
      (replaceTransform cid (replyIdsOf db cid) repl x).dislikes = x.dislikes := by
    intro x
    obtain ⟨a1, a2, a3, a4, a5⟩ :=
      updateReply_fields (replyIdsOf db cid) (updateMain cid repl x)
    obtain ⟨b1, b2, b3, b4, b5⟩ := updateMain_fields cid repl x
    exact ⟨a1.trans b1, a2.trans b2, a3.trans b3, a4.trans b4, a5.trans b5⟩
  simp only [replace_comment_with_message, hc]
  refine ⟨?_, ?_, ?_, ?_, ?_, ?_, ?_, ?_, ?_, ?_⟩
  · exact List.length_map _ _
  · rw [List.map_map]
    apply List.map_congr_left
    intro a _
    obtain ⟨h1, h2, h3, h4, h5⟩ := hkeep a
    simp [Function.comp, h1, h2, h3, h4, h5]
  · have hcomm : (db.comments.map (replaceTransform cid (replyIdsOf db cid) repl)).filter
        (fun x => decide (x.comment_id = cid ∨ x.parent_comment_id = some cid)) =
        (db.comments.filter
          (fun x => decide (x.comment_id = cid ∨ x.parent_comment_id = some cid))).map
          (replaceTransform cid (replyIdsOf db cid) repl) := by
      apply filter_map_comm
      intro x
      obtain ⟨h1, _, h3, _, _⟩ := hkeep x
      simp [h1, h3]
    rw [hcomm, List.length_map]
    have hsplit := length_filter_or_disjoint db.comments
      (fun x => decide (x.comment_id = cid))
      (fun x => decide (x.parent_comment_id = some cid))
      (by
        intro x hx ⟨h1, h2⟩
        simp only [decide_eq_true_eq] at h1 h2
        exact hns x hx h2 h1)
    have hone : (db.comments.filter (fun x => decide (x.comment_id = cid))).length = 1 := by
      have hcm := List.mem_of_find?_eq_some hc
      have hck : c.comment_id = cid := by
        have := List.find?_some hc
        simpa using this
      exact length_filter_eq_one_of_nodup_map db.comments Comment.comment_id
        hnd c hcm cid hck
    have hfun : (fun x : Comment =>
        decide (x.comment_id = cid ∨ x.parent_comment_id = some cid)) =
        (fun x : Comment => decide (x.comment_id = cid) ||
          decide (x.parent_comment_id = some cid)) := by
      funext x
      by_cases h1 : x.comment_id = cid <;>
        by_cases h2 : x.parent_comment_id = some cid <;> simp [h1, h2]
    rw [hfun, hsplit, hone]
  · intro x hx hxid
    apply List.mem_map.mpr
    exact ⟨x, hx, replaceTransform_of_target cid _ repl x hxid hcid_not_reply⟩
  · intro x hx hxpar
    apply List.mem_map.mpr
    have hxid : x.comment_id ≠ cid := hns x hx hxpar
    have hxin : x.comment_id ∈ replyIdsOf db cid :=
      mem_replyIdsOf.mpr ⟨x, hx, hxpar, rfl⟩
    exact ⟨x, hx, replaceTransform_of_reply cid _ repl x hxid hxin⟩
  · intro x hx hxid hxpar
    apply List.mem_map.mpr
    have hxin : x.comment_id ∉ replyIdsOf db cid := by
      rw [mem_replyIdsOf]
      rintro ⟨y, hy, hypar, hyid⟩
      have : y = x := List.inj_on_of_nodup_map hnd hy hx hyid
      subst this
      exact hxpar hypar
    exact ⟨x, hx, replaceTransform_of_other cid _ repl x hxid hxin⟩
  · intro r hr
    have h2 := (List.mem_filter.mp hr).2
    simp only [decide_eq_true_eq, List.mem_cons] at h2
    intro ⟨ha, hb⟩
    exact h2 ⟨ha, hb⟩
  · intro r hr hnot
    apply List.mem_filter.mpr
    refine ⟨hr, ?_⟩
    simp only [decide_eq_true_eq, List.mem_cons]
    exact hnot
  · trivial
  · trivial

/-- Witness for `replace_comment_preserves_shape`: replacing comment 101
(two direct replies) in the concrete thread keeps all five comment rows and
exactly the 1 + 2 thread rows. -/
theorem replace_comment_preserves_shape_witness :
    ((replace_comment_with_message dbThread 101 7 "[removed]").2.comments.length = 5) ∧
    (((replace_comment_with_message dbThread 101 7 "[removed]").2.comments.filter
        (fun x => x.comment_id = 101 ∨ x.parent_comment_id = some 101)).length = 3) := by
  have h := replace_comment_preserves_shape dbThread 101 7 "[removed]" _ rfl
    (by decide) (by decide)
  exact ⟨h.1.trans (by decide), h.2.2.1.trans (by decide)⟩

/-! ## Approval claims -/

/-- A lookup for an untouched post id is unaffected by `approve_post` on a
different id. -/
theorem findPost_approve_post_ne (db : DB) (pid pid' : Nat)
    (mid : Option Nat) (n : Nat) (hne : pid' ≠ pid) :
    findPost (approve_post db pid mid n) pid' = findPost db pid' := by
  show (db.posts.map (approvePostRow pid mid n)).find?
      (fun p => p.post_id = pid') = db.posts.find? (fun p => p.post_id = pid')
  induction db.posts with
  | nil => rfl
  | cons a t ih =>
    rw [List.map_cons, List.find?_cons, List.find?_cons]
    have hid : (approvePostRow pid mid n a).post_id = a.post_id := by
      unfold approvePostRow
      split <;> rfl
    by_cases ha : a.post_id = pid'
    · have h1 : a.post_id ≠ pid := fun hcon => hne (ha ▸ hcon.symm ▸ rfl)
      have h2 : approvePostRow pid mid n a = a := by
        unfold approvePostRow
        rw [if_neg h1]
      simp [h2, ha]
    · simp only [hid, ha]
      simpa [ha] using ih

theorem find?_map_approvePostRow (l : List Post) (pid : Nat)
    (mid : Option Nat) (n : Nat) :
    ∀ p, l.find? (fun q => q.post_id = pid) = some p →
      (l.map (approvePostRow pid mid n)).find? (fun q => q.post_id = pid) =
        some (approvePostRow pid mid n p) := by
  induction l with
  | nil =>
    intro p hp
    simp at hp
  | cons a t ih =>
    intro p hp
    rw [List.find?_cons] at hp
    rw [List.map_cons, List.find?_cons]
    have hid : (approvePostRow pid mid n a).post_id = a.post_id := by
      unfold approvePostRow
      split <;> rfl
    by_cases ha : a.post_id = pid
    · simp only [ha, decide_True, cond_true] at hp
      simp only [hid, ha, decide_True, cond_true]
      cases hp
      rfl
    · simp only [ha, decide_False, cond_false] at hp
      simp only [hid, ha, decide_False, cond_false]
      exact ih p hp

/-- The lookup of the approved post itself after `approve_post`. -/
theorem findPost_approve_post_self (db : DB) (pid : Nat) (mid : Option Nat)
    (n : Nat) (p : Post) (hp : findPost db pid = some p) :
    findPost (approve_post db pid mid n) pid =
      some { p with approved := some 1, channel_message_id := mid,
                    post_number := some n } := by
  have hpid : p.post_id = pid := by
    have := List.find?_some hp
    simpa using this
  have h := find?_map_approvePostRow db.posts pid mid n p hp
  rw [findPost, approve_post, h]
  unfold approvePostRow
  rw [if_pos hpid]

/-- A single pending post (approval unset, no number). -/
def dbPending : DB :=
  { posts := [{ post_id := 1, content := some "a confession",
                category := "general", user_id := 42, approved := none,
                channel_message_id := none, post_number := none,
                flagged := false, rejection_reason := none }],
    comments := [], reactions := [], reports := [], admin_actions := [] }

/-- C2 counterexample: approving the same pending post twice yields
`Approved` (with its post number) and then `AlreadyApproved`, but the
second acknowledgement — "Approved by another admin!" — carries *no* post
number at all, so the post number reported in the second observation is
not the one assigned in the first. -/
theorem approve_twice_no_number_reported :
    obsNumber (approveCallback dbPending 1 (.sent 100)).obs = some 1 ∧
    (approveCallback (approveCallback dbPending 1 (.sent 100)).db
      1 (.sent 100)).obs = .alreadyApproved ∧
    obsNumber (approveCallback (approveCallback dbPending 1 (.sent 100)).db
      1 (.sent 100)).obs = none := by
  decide

/-- C2 (amended): for a pending post, the first approve call succeeds and
reports the allocated post number; a second approve call on the resulting
state yields `AlreadyApproved`, mutates nothing, attempts no publish, and
reports no post number (the acknowledgement message carries none). -/
theorem approve_twice_idempotent (db : DB) (pid : Nat)
    (pub pub2 : PublishOutcome) (p : Post)
    (hp : findPost db pid = some p) (hpend : p.approved = none)
    (hpub : pub ≠ .sendFails) :
    obsNumber (approveCallback db pid pub).obs =
      some (get_next_post_number db.posts) ∧
    (approveCallback (approveCallback db pid pub).db pid pub2).obs =
      .alreadyApproved ∧
    (approveCallback (approveCallback db pid pub).db pid pub2).db =
      (approveCallback db pid pub).db ∧
    (approveCallback (approveCallback db pid pub).db pid pub2).publishAttempted =
      false ∧
    obsNumber (approveCallback (approveCallback db pid pub).db pid pub2).obs =
      none := by
  have key : ∀ mid : Option Nat,
      approveCallback
        (approve_post db pid mid (get_next_post_number db.posts)) pid pub2 =
      ⟨.alreadyApproved,
       approve_post db pid mid (get_next_post_number db.posts), false⟩ := by
    intro mid
    have hf := findPost_approve_post_self db pid mid
      (get_next_post_number db.posts) p hp
    simp [approveCallback, hf]
  cases pub with
  | sendFails => exact absurd rfl hpub
  | unreachable =>
    have h1 : approveCallback db pid .unreachable =
        ⟨.approvedLocal (get_next_post_number db.posts),
         approve_post db pid none (get_next_post_number db.posts), false⟩ := by
      simp [approveCallback, hp, hpend]
    rw [h1]
    refine ⟨rfl, ?_, ?_, ?_, ?_⟩ <;> rw [key none] <;> rfl
  | sent mid =>
    have h1 : approveCallback db pid (.sent mid) =
        ⟨.approvedPosted (get_next_post_number db.posts) mid,
         approve_post db pid (some mid) (get_next_post_number db.posts),
         true⟩ := by
      simp [approveCallback, hp, hpend]
    rw [h1]
    refine ⟨rfl, ?_, ?_, ?_, ?_⟩ <;> rw [key (some mid)] <;> rfl

/-- Witness for `approve_twice_idempotent` at the concrete pending post. -/
theorem approve_twice_idempotent_witness :
    obsNumber (approveCallback dbPending 1 .unreachable).obs = some 1 ∧
    (approveCallback (approveCallback dbPending 1 .unreachable).db
      1 .unreachable).obs = .alreadyApproved := by
  have h := approve_twice_idempotent dbPending 1 .unreachable .unreachable _
    rfl rfl (by decide)
  exact ⟨h.1.trans (by decide), h.2.1⟩

/-- C3 counterexample: when the channel is accessible but the publish call
itself raises, the exception jumps to the outer handler before
`approve_post` is reached — the post is left pending (not approved), so a
publish failure does leave the post unapproved. -/
theorem approve_send_failure_leaves_pending :
    (approveCallback dbPending 1 .sendFails).obs = .publishError ∧
    ((findPost (approveCallback dbPending 1 .sendFails).db 1).map
        Post.approved = some none) := by
  decide

/-- C3 (amended): for a pending post, when the pre-flight channel probe
fails (channel unreachable) the post is still persisted as approved with a
null channel reference and its allocated post number; but when the publish
call itself raises, no approval is persisted — the post remains pending
and the operation reports a publish error. -/
theorem approve_publish_failure_behavior (db : DB) (pid : Nat) (p : Post)
    (hp : findPost db pid = some p) (hpend : p.approved = none) :
    (approveCallback db pid .unreachable).obs =
      .approvedLocal (get_next_post_number db.posts) ∧
    findPost (approveCallback db pid .unreachable).db pid =
      some { p with approved := some 1, channel_message_id := none,
                    post_number := some (get_next_post_number db.posts) } ∧
    (approveCallback db pid .sendFails).obs = .publishError ∧
    (approveCallback db pid .sendFails).db = db := by
  have h1 : approveCallback db pid .unreachable =
      ⟨.approvedLocal (get_next_post_number db.posts),
       approve_post db pid none (get_next_post_number db.posts), false⟩ := by
    simp [approveCallback, hp, hpend]
  have h2 : approveCallback db pid .sendFails = ⟨.publishError, db, true⟩ := by
    simp [approveCallback, hp, hpend]
  refine ⟨by rw [h1], ?_, by rw [h2], by rw [h2]⟩
  rw [h1]
  exact findPost_approve_post_self db pid none _ p hp

/-- Witness for `approve_publish_failure_behavior` at the concrete pending
post. -/
theorem approve_publish_failure_behavior_witness :
    (approveCallback dbPending 1 .unreachable).obs = .approvedLocal 1 ∧
    (approveCallback dbPending 1 .sendFails).db = dbPending := by
  have h := approve_publish_failure_behavior dbPending 1 _ rfl rfl
  exact ⟨h.1.trans (by decide), h.2.2.2⟩

/-! ## Report aggregation claims -/

/-- One comment (id 9) with no reports yet. -/
def dbReports : DB :=
  { posts := [], comments :=
      [{ comment_id := 9, post_id := 1, user_id := 43, content := "something",
         parent_comment_id := none, likes := 0, dislikes := 0,
         flagged := false }],
    reactions := [], reports := [], admin_actions := [] }

/-- C5 counterexample: in the enhanced reporting path, a duplicate report
by the same reporter on the same target stores no new row but the call
returns `(False, "already_reported")` — it does not return the current
aggregate report count to the caller. -/
theorem submit_report_duplicate_returns_no_count :
    (submit_report dbReports 555 "comment" 9 "spam").1 = .recorded 1 ∧
    (submit_report (submit_report dbReports 555 "comment" 9 "spam").2
      555 "comment" 9 "spam").1 = .alreadyReported ∧
    submitCount (submit_report (submit_report dbReports 555 "comment" 9 "spam").2
      555 "comment" 9 "spam").1 = none ∧
    (submit_report (submit_report dbReports 555 "comment" 9 "spam").2
      555 "comment" 9 "spam").2 =
      (submit_report dbReports 555 "comment" 9 "spam").2 := by
  decide

/-- C5 (amended): a second report by the same reporter against the same
target stores no new report row in either path; `report_abuse` does return
the current aggregate count to the caller, but `submit_report` returns only
the duplicate indication, without the aggregate count. -/
theorem duplicate_report_dedup (db : DB) (u : Nat) (tt : String) (tid : Nat)
    (reason reason2 : String)
    (hdup : userReportCount db u tt tid > 0) :
    report_abuse db u tt tid reason = (reportCountFor db tt tid, db) ∧
    submit_report db u tt tid reason2 = (.alreadyReported, db) := by
  constructor
  · simp [report_abuse, hdup]
  · simp [submit_report, hdup]

/-- Witness for `duplicate_report_dedup` after one stored report. -/
theorem duplicate_report_dedup_witness :
    report_abuse (submit_report dbReports 555 "comment" 9 "spam").2
        555 "comment" 9 "again" =
      (1, (submit_report dbReports 555 "comment" 9 "spam").2) ∧
    submit_report (submit_report dbReports 555 "comment" 9 "spam").2
        555 "comment" 9 "again" =
      (.alreadyReported, (submit_report dbReports 555 "comment" 9 "spam").2) := by
  have h := duplicate_report_dedup
    (submit_report dbReports 555 "comment" 9 "spam").2 555 "comment" 9
    "again" "again" (by decide)
  refine ⟨h.1.trans ?_, h.2⟩
  decide

/-- C6 counterexample: a first successful report on an existing comment —
aggregate count 1, far below the threshold of 5 — already triggers the
admin notification fan-out, because the enhanced reporting path calls
`notify_admins_immediate` on every successful report without any threshold
comparison. -/
theorem first_report_triggers_fanout :
    (handle_submit_report dbReports 555 "comment" 9 "spam").1 = .recorded 1 ∧
    (1 : Nat) < 5 ∧
    (handle_submit_report dbReports 555 "comment" 9 "spam").2.2 = true := by
  decide

/-- C6 (amended): the threshold notifier of `moderation.py`
(`notify_admins_about_reports`) never reaches its fan-out loop while the
report count is below 5; but the enhanced reporting path fans out to the
admins on every successful (non-duplicate) report of existing content,
regardless of the count — including counts below 5. -/
theorem threshold_vs_immediate_notification (db : DB) (tt : String)
    (tid count u : Nat) (reason : String)
    (hlt : count < 5)
    (hfresh : userReportCount db u tt tid = 0)
    (hcontent : (get_content_details db tt tid).isSome = true) :
    notify_admins_about_reports db tt tid count = false ∧
    (handle_submit_report db u tt tid reason).2.2 = true := by
  constructor
  · simp [notify_admins_about_reports, hlt]
  · have hsub : submit_report db u tt tid reason =
        (.recorded (reportCountFor
          { db with reports := db.reports ++
            [{ user_id := u, target_type := tt, target_id := tid,
               reason := reason }] } tt tid),
         { db with reports := db.reports ++
            [{ user_id := u, target_type := tt, target_id := tid,
               reason := reason }] }) := by
      simp [submit_report, hfresh]
    have hsame : get_content_details
        { db with reports := db.reports ++
          [{ user_id := u, target_type := tt, target_id := tid,
             reason := reason }] } tt tid =
        get_content_details db tt tid := by
      simp [get_content_details, findComment, findPost]
    simp [handle_submit_report, hsub, notify_admins_immediate, hsame, hcontent]

/-- Witness for `threshold_vs_immediate_notification` at the concrete
state: count 1 for the threshold check, fresh reporter 555, comment 9. -/
theorem threshold_vs_immediate_notification_witness :
    notify_admins_about_reports dbReports "comment" 9 1 = false ∧
    (handle_submit_report dbReports 555 "comment" 9 "spam").2.2 = true := by
  exact threshold_vs_immediate_notification dbReports "comment" 9 1 555 "spam"
    (by decide) (by decide) (by decide)

/-! ## Reaction claims -/

/-- The `reactions` table after one `react_to_comment` call, by case on the
existing-reaction lookup. -/
theorem react_to_comment_reactions (db : DB) (u cid : Nat) (t : String) :
    (react_to_comment db u cid t).2.reactions =
      match db.reactions.find? (fun r => r.user_id = u ∧
          r.target_type = "comment" ∧ r.target_id = cid) with
      | some existing =>
        if existing.reaction_type = t then
          db.reactions.filter (fun r => ¬(r.user_id = u ∧
            r.target_type = "comment" ∧ r.target_id = cid))
        else
          db.reactions.map (fun r =>
            if r.user_id = u ∧ r.target_type = "comment" ∧ r.target_id = cid
            then { r with reaction_type := t } else r)
      | none => db.reactions ++ [{ user_id := u, target_type := "comment",
                                   target_id := cid, reaction_type := t }] := by
  simp only [react_to_comment]
  rcases h : db.reactions.find? (fun r => r.user_id = u ∧
      r.target_type = "comment" ∧ r.target_id = cid) with _ | ex
  · simp only [h]
  · simp only [h]
    by_cases ht : ex.reaction_type = t
    · rw [if_pos ht, if_pos ht]
    · rw [if_neg ht, if_neg ht]

/-- One `react_to_comment` call preserves the at-most-one-reaction
invariant. -/
theorem react_to_comment_invariant (db : DB) (u cid : Nat) (t : String)
    (hinv : reactionInvariant db) :
    reactionInvariant (react_to_comment db u cid t).2 := by
  intro u' tt' tid'
  rw [reactionInvariant] at hinv
  rw [react_to_comment_reactions]
  rcases h : db.reactions.find? (fun r => r.user_id = u ∧
      r.target_type = "comment" ∧ r.target_id = cid) with _ | ex
  · -- insert branch
    simp only [h]
    rw [List.filter_append]
    by_cases hpair : u = u' ∧ "comment" = tt' ∧ cid = tid'
    · obtain ⟨h1, h2, h3⟩ := hpair
      subst h1
      subst h2
      subst h3
      have hz : db.reactions.filter (fun r => r.user_id = u ∧
          r.target_type = "comment" ∧ r.target_id = cid) = [] := by
        rw [List.filter_eq_nil_iff]
        intro r hr
        have := List.find?_eq_none.mp h r hr
        simpa using this
      rw [hz]
      simp
    · have hsingle : List.filter (fun r => decide (r.user_id = u' ∧
          r.target_type = tt' ∧ r.target_id = tid'))
          [({ user_id := u, target_type := "comment", target_id := cid,
              reaction_type := t } : Reaction)] = [] := by
        simp only [List.filter_cons, List.filter_nil, decide_eq_true_eq]
        rw [if_neg hpair]
      rw [hsingle, List.append_nil]
      exact hinv u' tt' tid'
  · simp only [h]
    by_cases ht : ex.reaction_type = t
    · rw [if_pos ht]
      calc ((db.reactions.filter (fun r => ¬(r.user_id = u ∧
              r.target_type = "comment" ∧ r.target_id = cid))).filter
            (fun r => r.user_id = u' ∧ r.target_type = tt' ∧
              r.target_id = tid')).length
          ≤ (db.reactions.filter (fun r => r.user_id = u' ∧
              r.target_type = tt' ∧ r.target_id = tid')).length :=
            ((List.filter_sublist _).filter _).length_le
        _ ≤ 1 := hinv u' tt' tid'
    · rw [if_neg ht]
      rw [filter_map_comm]
      · rw [List.length_map]
        exact hinv u' tt' tid'
      · intro r
        by_cases hm : r.user_id = u ∧ r.target_type = "comment" ∧
            r.target_id = cid
        · rw [if_pos hm]
        · rw [if_neg hm]

/-- C9: starting from a state satisfying the at-most-one-reaction
invariant, any sequence of `react_to_comment` operations preserves it: for
every (user, target) pair at most one reaction row exists afterwards — a
repeat same-type reaction deletes the row, an opposite-type reaction
updates it in place, and a duplicate row is never created. -/
theorem reaction_invariant_sequence (db : DB)
    (ops : List (Nat × Nat × String)) (hinv : reactionInvariant db) :
    reactionInvariant (applyReactions db ops) := by
  induction ops generalizing db with
  | nil => exact hinv
  | cons op rest ih =>
    exact ih _ (react_to_comment_invariant db op.1 op.2.1 op.2.2 hinv)

/-- The empty database. -/
def dbEmpty : DB :=
  { posts := [], comments := [], reactions := [], reports := [],
    admin_actions := [] }

/-- Witness for `reaction_invariant_sequence`: like, flip to dislike, then
like twice (toggle off and back on) on comment 101 by user 48, starting
from the empty reactions table. -/
theorem reaction_invariant_sequence_witness :
    reactionInvariant dbEmpty ∧
    reactionInvariant (applyReactions dbEmpty
      [(48, 101, "like"), (48, 101, "dislike"), (48, 101, "like"),
       (48, 101, "like")]) := by
  have h0 : reactionInvariant dbEmpty := by
    intro u tt tid
    simp [dbEmpty]
  exact ⟨h0, reaction_invariant_sequence _ _ h0⟩

/-! ## Post-number allocation claims -/

/-- The maximum assigned post number, with 0 for "none assigned" (so that
`get_next_post_number` always equals this value plus one). -/
def natMaxPN (posts : List Post) : Nat :=
  posts.foldr
    (fun p acc =>
      match p.post_number with
      | some v => Nat.max v acc
      | none => acc)
    0

theorem maxPostNumber_cons (a : Post) (t : List Post) :
    maxPostNumber (a :: t) =
      match a.post_number, maxPostNumber t with
      | none, acc => acc
      | some v, none => some v
      | some v, some m => some (Nat.max v m) := rfl

theorem natMaxPN_cons (a : Post) (t : List Post) :
    natMaxPN (a :: t) =
      match a.post_number with
      | some v => Nat.max v (natMaxPN t)
      | none => natMaxPN t := rfl

theorem natMaxPN_of_maxPostNumber_none (posts : List Post)
    (h : maxPostNumber posts = none) : natMaxPN posts = 0 := by
  induction posts with
  | nil => rfl
  | cons a t ih =>
    rw [maxPostNumber_cons] at h
    rw [natMaxPN_cons]
    rcases ha : a.post_number with _ | v <;> rw [ha] at h
    · exact ih h
    · rcases hm : maxPostNumber t with _ | m <;> rw [hm] at h <;> simp at h

theorem natMaxPN_of_maxPostNumber_some (posts : List Post) (m : Nat)
    (h : maxPostNumber posts = some m) : natMaxPN posts = m := by
  induction posts generalizing m with
  | nil => simp [maxPostNumber] at h
  | cons a t ih =>
    rw [maxPostNumber_cons] at h
    rw [natMaxPN_cons]
    rcases ha : a.post_number with _ | v <;> rw [ha] at h
    · exact ih m h
    · rcases hm : maxPostNumber t with _ | k <;> rw [hm] at h
      · cases h
        rw [natMaxPN_of_maxPostNumber_none t hm]
        simp
      · cases h
        rw [ih k hm]

theorem get_next_eq_natMaxPN (posts : List Post) :
    get_next_post_number posts = natMaxPN posts + 1 := by
  rw [get_next_post_number]
  rcases hm : maxPostNumber posts with _ | m
  · rw [natMaxPN_of_maxPostNumber_none posts hm]
  · rw [natMaxPN_of_maxPostNumber_some posts m hm]

theorem natMaxPN_le (posts : List Post) (b : Nat)
    (h : ∀ p ∈ posts, ∀ v, p.post_number = some v → v ≤ b) :
    natMaxPN posts ≤ b := by
  induction posts with
  | nil => exact Nat.zero_le b
  | cons a t ih =>
    rw [natMaxPN, List.foldr_cons, ← natMaxPN]
    have ht := ih (fun p hp v hv => h p (List.mem_cons_of_mem a hp) v hv)
    rcases ha : a.post_number with _ | v
    · exact ht
    · exact Nat.max_le.mpr ⟨h a (List.mem_cons_self a t) v ha, ht⟩

theorem le_natMaxPN (posts : List Post) (p : Post) (v : Nat)
    (hp : p ∈ posts) (hv : p.post_number = some v) :
    v ≤ natMaxPN posts := by
  induction posts with
  | nil => cases hp
  | cons a t ih =>
    rw [natMaxPN, List.foldr_cons, ← natMaxPN]
    rcases List.mem_cons.mp hp with rfl | hpt
    · rw [hv]
      exact Nat.le_max_left v (natMaxPN t)
    · have := ih hpt
      rcases ha : a.post_number with _ | w
      · exact this
      · exact Nat.le_trans this (Nat.le_max_right w (natMaxPN t))

theorem approvePostRow_post_id (pid : Nat) (mid : Option Nat) (n : Nat)
    (p : Post) : (approvePostRow pid mid n p).post_id = p.post_id := by
  unfold approvePostRow
  split <;> rfl

theorem natMaxPN_after_approve (posts : List Post) (pid : Nat)
    (mid : Option Nat) (p : Post) (hp : p ∈ posts) (hpid : p.post_id = pid) :
    natMaxPN (posts.map (approvePostRow pid mid (natMaxPN posts + 1))) =
      natMaxPN posts + 1 := by
  apply Nat.le_antisymm
  · apply natMaxPN_le
    intro q hq v hv
    obtain ⟨q0, hq0, rfl⟩ := List.mem_map.mp hq
    by_cases hid : q0.post_id = pid
    · rw [approvePostRow, if_pos hid] at hv
      simp only at hv
      cases hv
      exact Nat.le_refl _
    · rw [approvePostRow, if_neg hid] at hv
      have := le_natMaxPN posts q0 v hq0 hv
      omega
  · have hmem : approvePostRow pid mid (natMaxPN posts + 1) p ∈
        posts.map (approvePostRow pid mid (natMaxPN posts + 1)) :=
      List.mem_map_of_mem _ hp
    apply le_natMaxPN _ _ _ hmem
    rw [approvePostRow, if_pos hpid]

/-- Approving a pending post with the channel unreachable: the outcome, and
the fact that the next allocation afterwards is one higher. -/
theorem approveCallback_pending_step (db : DB) (pid : Nat) (p : Post)
    (hp : findPost db pid = some p) (hpend : p.approved = none) :
    approveCallback db pid .unreachable =
      ⟨.approvedLocal (get_next_post_number db.posts),
       approve_post db pid none (get_next_post_number db.posts), false⟩ ∧
    get_next_post_number
        (approve_post db pid none (get_next_post_number db.posts)).posts =
      get_next_post_number db.posts + 1 := by
  constructor
  · simp [approveCallback, hp, hpend]
  · have hpm : p ∈ db.posts := List.mem_of_find?_eq_some hp
    have hpid : p.post_id = pid := by simpa using List.find?_some hp
    show get_next_post_number
        (db.posts.map (approvePostRow pid none (get_next_post_number db.posts))) = _
    rw [get_next_eq_natMaxPN db.posts]
    rw [get_next_eq_natMaxPN]
    rw [natMaxPN_after_approve db.posts pid none p hpm hpid]

theorem seqFrom_length (s n : Nat) : (seqFrom s n).length = n := by
  induction n generalizing s with
  | zero => rfl
  | succ k ih =>
    rw [seqFrom, List.length_cons, ih]

theorem seqFrom_chain' (s n : Nat) : List.Chain' (· < ·) (seqFrom s n) := by
  induction n generalizing s with
  | zero => exact List.chain'_nil
  | succ k ih =>
    rw [seqFrom]
    cases k with
    | zero => simp [seqFrom]
    | succ k2 =>
      rw [seqFrom]
      exact List.Chain'.cons (Nat.lt_succ_self s) (seqFrom.eq_2 (s + 1) k2 ▸ ih (s + 1))

theorem seqFrom_nodup (s n : Nat) : (seqFrom s n).Nodup := by
  have hp : List.Pairwise (· < ·) (seqFrom s n) :=
    (List.chain'_iff_pairwise).mp (seqFrom_chain' s n)
  exact hp.imp Nat.ne_of_lt

theorem filterMap_of_map_eq_map_some {α β : Type} (f : α → Option β) :
    ∀ (l : List α) (s : List β), l.map f = s.map some → l.filterMap f = s := by
  intro l
  induction l with
  | nil =>
    intro s h
    cases s with
    | nil => rfl
    | cons b t => simp at h
  | cons a t ih =>
    intro s h
    cases s with
    | nil => simp at h
    | cons b u =>
      rw [List.map_cons, List.map_cons] at h
      obtain ⟨h1, h2⟩ := List.cons.injEq _ _ _ _ ▸ h
      rw [List.filterMap_cons, h1]
      rw [ih u h2]

/-- Sequentially approving a list of distinct pending posts reports exactly
the contiguous block of numbers starting at the current
`get_next_post_number`. -/
theorem approveMany_numbers (pids : List Nat) : ∀ db : DB,
    (∀ pid ∈ pids, ∃ p, findPost db pid = some p ∧ p.approved = none) →
    pids.Nodup →
    (approveMany db pids).1.map obsNumber =
      (seqFrom (get_next_post_number db.posts) pids.length).map some := by
  induction pids with
  | nil =>
    intro db h hd
    rfl
  | cons pid rest ih =>
    intro db h hd
    obtain ⟨p, hp, hpend⟩ := h pid (List.mem_cons_self pid rest)
    obtain ⟨hstep, hnext⟩ := approveCallback_pending_step db pid p hp hpend
    have hpid_notin : pid ∉ rest := (List.nodup_cons.mp hd).1
    have hrest_pending : ∀ pid' ∈ rest,
        ∃ p', findPost (approve_post db pid none
          (get_next_post_number db.posts)) pid' = some p' ∧
          p'.approved = none := by
      intro pid' hmem
      obtain ⟨p', hp', hpend'⟩ := h pid' (List.mem_cons_of_mem pid hmem)
      have hne : pid' ≠ pid := fun hcon => hpid_notin (hcon ▸ hmem)
      exact ⟨p', (findPost_approve_post_ne db pid pid' none _ hne).trans hp',
        hpend'⟩
    rcases hrest : approveMany (approve_post db pid none
      (get_next_post_number db.posts)) rest with ⟨obss, dbf⟩
    have hih := ih (approve_post db pid none (get_next_post_number db.posts))
      hrest_pending (List.nodup_cons.mp hd).2
    rw [hrest] at hih
    simp only [approveMany, hstep, hrest]
    rw [List.length_cons, seqFrom, List.map_cons, List.map_cons]
    rw [hih, hnext]
    rfl

/-- Two pending posts awaiting approval. -/
def dbTwoPending : DB :=
  { posts := [{ post_id := 1, content := some "first confession",
                category := "general", user_id := 42, approved := none,
                channel_message_id := none, post_number := none,
                flagged := false, rejection_reason := none },
              { post_id := 2, content := some "second confession",
                category := "general", user_id := 43, approved := none,
                channel_message_id := none, post_number := none,
                flagged := false, rejection_reason := none }],
    comments := [], reactions := [], reports := [], admin_actions := [] }

/-- C4 counterexample: an assigned post number *is* reassigned once the
post holding the maximum number is deleted, because the allocation is
`1 + MAX(post_number)` over the posts that still exist.  Post 1 is approved
and receives number 1; post 1 is then deleted; approving post 2 allocates
number 1 again. -/
theorem post_number_reassigned_after_delete :
    obsNumber (approveCallback dbTwoPending 1 .unreachable).obs = some 1 ∧
    (delete_post_completely (approveCallback dbTwoPending 1 .unreachable).db
      1 7 .ok).1 = .success 0 0 0 ∧
    obsNumber (approveCallback
      (delete_post_completely (approveCallback dbTwoPending 1 .unreachable).db
        1 7 .ok).2 2 .unreachable).obs = some 1 := by
  decide

/-- C4 (amended): sequentially approving N distinct pending posts, with no
interleaved deletion, reports exactly the contiguous block of N numbers
starting at `get_next_post_number` (each allocation is 1 + the maximum
existing post number, or 1 when none exists): the reported numbers are
distinct, strictly increasing and gapless.  (Without the no-deletion
proviso the "never reassigned" part of the claim fails: deleting the
highest-numbered post makes its number be allocated again.) -/
theorem approve_many_contiguous (db : DB) (pids : List Nat)
    (hnd : pids.Nodup)
    (hpend : ∀ pid ∈ pids, ∃ p, findPost db pid = some p ∧
      p.approved = none) :
    (approveMany db pids).1.map obsNumber =
      (seqFrom (get_next_post_number db.posts) pids.length).map some ∧
    (approveMany db pids).1.filterMap obsNumber =
      seqFrom (get_next_post_number db.posts) pids.length ∧
    ((approveMany db pids).1.filterMap obsNumber).length = pids.length ∧
    ((approveMany db pids).1.filterMap obsNumber).Nodup ∧
    List.Chain' (· < ·) ((approveMany db pids).1.filterMap obsNumber) := by
  have h1 := approveMany_numbers pids db hpend hnd
  have h2 := filterMap_of_map_eq_map_some obsNumber _ _ h1
  refine ⟨h1, h2, ?_, ?_, ?_⟩
  · rw [h2, seqFrom_length]
  · rw [h2]
    exact seqFrom_nodup _ _
  · rw [h2]
    exact seqFrom_chain' _ _

/-- Witness for `approve_many_contiguous`: approving the two concrete
pending posts yields the numbers [1, 2]. -/
theorem approve_many_contiguous_witness :
    (approveMany dbTwoPending [1, 2]).1.filterMap obsNumber = [1, 2] := by
  have h := approve_many_contiguous dbTwoPending [1, 2] (by decide) ?_
  · exact h.2.1.trans (by decide)
  · intro pid hmem
    rcases List.mem_cons.mp hmem with rfl | hmem2
    · exact ⟨_, rfl, rfl⟩
    · rcases List.mem_cons.mp hmem2 with rfl | hmem3
      · exact ⟨_, rfl, rfl⟩
      · cases hmem3

end ConfessionBot
